import Mathlib

/-
Shallow embedding of src/tsjoi.ts: a compiler from TypeScript type
declarations to Joi validation-schema source text.

The TypeScript AST nodes consumed by the compiler are modelled as inductive
types below; the compiler functions (`type2joi`, `union2joi`, `array2joi`,
`literal2joi`, `reference2joi`, `prop2joi`, `propList2joi`, `makeTypeGuard`,
`stmt2joi`, `ts2joi`) are transliterated from the source.  A thrown
JavaScript `Error` is modelled as `Except.error` carrying the message;
every function that can throw returns `Except String _`.

The process-wide mutable `SUFFIX` variable of the source is threaded as an
explicit `sfx : String` parameter through the render functions (`ts2joi`
assigns it once from its options before rendering, and every reader sees
that single value, so the threading is observationally identical).

Brace characters inside string literals are written with the escapes
\x7b (left brace) and \x7d (right brace); \x27 is an apostrophe.
-/

namespace Tsjoi

/-- The subset of `ts.SyntaxKind` the compiler inspects.  Every kind the
dispatch in `type2joi` does not name is collapsed into `otherKind`. -/
inductive SyntaxKind where
  | anyKeyword
  | numberKeyword
  | objectKeyword
  | booleanKeyword
  | stringKeyword
  | symbolKeyword
  | thisKeyword
  | voidKeyword
  | undefinedKeyword
  | nullKeyword
  | neverKeyword
  | unionType
  | arrayType
  | typeLiteral
  | typeReference
  | literalType
  | otherKind
deriving DecidableEq, Repr

/-- A `ts.PropertyName`: either a plain identifier (for which
`ts.isIdentifier` is true) or any other name form (string literal,
numeric literal, computed name). -/
inductive PropName where
  | ident (text : String)
  | nonIdent (text : String)
deriving DecidableEq, Repr

/-- A `ts.EntityName` of a type reference: a plain identifier or a
qualified (dotted) name; for the latter only its source text matters. -/
inductive EntityName where
  | ident (escapedText : String)
  | qualifiedName (text : String)
deriving DecidableEq, Repr

mutual

/-- A `ts.TypeNode`.  The keyword constructors are the eleven keyword kinds
named in `type2joi`'s switch; `stringLiteral s` is a `ts.LiteralTypeNode`
wrapping a string literal with text `s` (the shape recognised by
`union2joi`); `other kindName text` stands for every remaining type-node
kind, carrying only its source text. -/
inductive TypeNode where
  | anyKw
  | numberKw
  | objectKw
  | booleanKw
  | stringKw
  | symbolKw
  | thisKw
  | voidKw
  | undefinedKw
  | nullKw
  | neverKw
  | union (types : List TypeNode)
  | array (elementType : TypeNode)
  | typeLiteral (members : List TypeElement)
  | reference (typeName : EntityName)
  | stringLiteral (text : String)
  | other (kindName : String) (text : String)

/-- A `ts.TypeElement` (member of a type literal or interface body):
a property signature (name, optional type annotation, question token) or
any other member kind (method signature, index signature, ...), which
`ts.isPropertySignature` rejects. -/
inductive TypeElement where
  | propertySignature (name : PropName) (type : Option TypeNode) (questionToken : Bool)
  | otherElement (text : String)

end

/-- `node.kind` for the modelled type nodes. -/
def TypeNode.kind : TypeNode → SyntaxKind
  | .anyKw => .anyKeyword
  | .numberKw => .numberKeyword
  | .objectKw => .objectKeyword
  | .booleanKw => .booleanKeyword
  | .stringKw => .stringKeyword
  | .symbolKw => .symbolKeyword
  | .thisKw => .thisKeyword
  | .voidKw => .voidKeyword
  | .undefinedKw => .undefinedKeyword
  | .nullKw => .nullKeyword
  | .neverKw => .neverKeyword
  | .union _ => .unionType
  | .array _ => .arrayType
  | .typeLiteral _ => .typeLiteral
  | .reference _ => .typeReference
  | .stringLiteral _ => .literalType
  | .other _ _ => .otherKind

/-- `ts.isLiteralTypeNode(x) && ts.isStringLiteral(x.literal)`. -/
def isStringLiteralType : TypeNode → Bool
  | .stringLiteral _ => true
  | _ => false

/-- `((x as ts.LiteralTypeNode).literal as ts.StringLiteral).text`; only
ever applied to nodes that passed `isStringLiteralType`. -/
def TypeNode.literalText : TypeNode → String
  | .stringLiteral s => s
  | _ => ""

/-- `ts.isIdentifier(name)` for a property name. -/
def PropName.isIdentifier : PropName → Bool
  | .ident _ => true
  | .nonIdent _ => false

/-- The identifier text of a property name (`name.escapedText`). -/
def PropName.text : PropName → String
  | .ident s => s
  | .nonIdent s => s

/-- Source text of an entity name. -/
def EntityName.text : EntityName → String
  | .ident s => s
  | .qualifiedName s => s

mutual

/-- `node.getText()`: the surface syntax of a type node.  In the source
this returns the original source slice; here it is reconstructed from the
tree, which agrees with the source text up to whitespace. -/
def TypeNode.getText : TypeNode → String
  | .anyKw => "any"
  | .numberKw => "number"
  | .objectKw => "object"
  | .booleanKw => "boolean"
  | .stringKw => "string"
  | .symbolKw => "symbol"
  | .thisKw => "this"
  | .voidKw => "void"
  | .undefinedKw => "undefined"
  | .nullKw => "null"
  | .neverKw => "never"
  | .union ts => unionMembersText ts
  | .array t => t.getText ++ "[]"
  | .typeLiteral ms => "\x7b " ++ literalMembersText ms ++ " \x7d"
  | .reference n => n.text
  | .stringLiteral s => "\"" ++ s ++ "\""
  | .other _ txt => txt

/-- The members of a union joined by a vertical bar. -/
def unionMembersText : List TypeNode → String
  | [] => ""
  | [t] => t.getText
  | t :: ts => t.getText ++ " | " ++ unionMembersText ts

/-- The members of a type literal joined by semicolons. -/
def literalMembersText : List TypeElement → String
  | [] => ""
  | [m] => typeElementText m
  | m :: ms => typeElementText m ++ "; " ++ literalMembersText ms

/-- Surface syntax of one type-literal member. -/
def typeElementText : TypeElement → String
  | .propertySignature n t q =>
      n.text ++ (if q then "?" else "") ++
        (match t with
          | some tp => ": " ++ tp.getText
          | none => "")
  | .otherElement txt => txt

end

/-- The `all` helper of the source: early-exit conjunction over a list. -/
def all {α : Type} (predicate : α → Bool) : List α → Bool
  | [] => true
  | x :: xs => if predicate x then all predicate xs else false

/-- `const r = required ? '.required()' : ''` in `type2joi`. -/
def requiredSuffix (required : Bool) : String :=
  if required then ".required()" else ""

/-- `Array(indent).fill(' ').join('')`: a string of `indent` spaces. -/
def spaces (indent : Nat) : String :=
  String.mk (List.replicate indent ' ')

/-- The two trailing steps of `union2joi` (the all-string-literals check
and the final throw), reached when the nullable two-member special case
did not fire.  `txt` is `tp.getText()` of the union node. -/
def unionFallback (types : List TypeNode) (txt : String) : Except String String :=
  if all isStringLiteralType types then
    let values := (types.map TypeNode.literalText).map (fun x => "\"" ++ x ++ "\"")
    .ok ("Joi.string().valid([" ++ String.intercalate ", " values ++ "])")
  else
    .error ("Cannot convert the following type yet: " ++ txt)

/-- A top-level `ts.Statement`: an interface declaration (name and member
list), a type-alias declaration (name and aliased type), or any other
statement kind, which `stmt2joi` skips. -/
inductive Statement where
  | interfaceDecl (name : String) (members : List TypeElement)
  | typeAliasDecl (name : String) (type : TypeNode)
  | otherStmt (text : String)

/-- `reference2joi(tp)`: `txt` is `tp.getText()` (used only in the error
message). -/
def reference2joi (typeName : EntityName) (txt : String) (sfx : String) :
    Except String String :=
  match typeName with
  | .ident escapedText => .ok (escapedText ++ sfx)
  | .qualifiedName _ => .error ("Cannot convert QualifiedName yet: " ++ txt)

mutual

/-- `type2joi(tp, required, indent)` with the global suffix threaded as
`sfx`.  Kinds outside the switch fall through to the final throw. -/
def type2joi (tp : TypeNode) (required : Bool) (indent : Nat) (sfx : String) :
    Except String String :=
  let r := requiredSuffix required
  match tp with
  | .anyKw | .numberKw | .objectKw | .booleanKw | .stringKw | .symbolKw
  | .thisKw | .voidKw | .undefinedKw | .nullKw | .neverKw =>
      .ok ("Joi." ++ tp.getText ++ "()" ++ r)
  | .union ts =>
      (union2joi ts (TypeNode.getText (.union ts)) sfx).map (fun s => s ++ r)
  | .array elementType =>
      (array2joi elementType sfx).map (fun s => s ++ r)
  | .typeLiteral ms =>
      (literal2joi ms indent sfx).map (fun s => s ++ r)
  | .reference nm =>
      (reference2joi nm (TypeNode.getText (.reference nm)) sfx).map (fun s => s ++ r)
  | .stringLiteral _ | .other _ _ =>
      .error ("Cannot convert type " ++ tp.getText ++ " yet")

/-- `union2joi(tp)`: `txt` is `tp.getText()` (used only in the error
message).  The source computes `notnull` as
`types[0].kind === NullKeyword ? tp.types[1] : tp.types[0]`; the nested
`if` below is that conditional with the recursive call distributed over
the two alternatives. -/
def union2joi (types : List TypeNode) (txt : String) (sfx : String) :
    Except String String :=
  match types with
  | [a, b] =>
      if a.kind = SyntaxKind.nullKeyword ∨ b.kind = SyntaxKind.nullKeyword then
        if a.kind = SyntaxKind.nullKeyword then
          (type2joi b false 0 sfx).map (fun s => s ++ ".allow(null)")
        else
          (type2joi a false 0 sfx).map (fun s => s ++ ".allow(null)")
      else
        unionFallback [a, b] txt
  | _ => unionFallback types txt

/-- `array2joi(tp)`. -/
def array2joi (elementType : TypeNode) (sfx : String) : Except String String :=
  (type2joi elementType false 0 sfx).map
    (fun e => "Joi.array().items(" ++ e ++ ")")

/-- `literal2joi(tp, indent)`. -/
def literal2joi (members : List TypeElement) (indent : Nat) (sfx : String) :
    Except String String :=
  propList2joi members indent sfx

/-- `propList2joi(members, indent)`: filter to identifier-named property
signatures, render each with `prop2joi` at `indent + 2`, join with
`',\n'` (a `null` result joins as the empty string, as JavaScript
`Array.prototype.join` renders `null` elements), and wrap in
`Joi.object(...)`. -/
def propList2joi (members : List TypeElement) (indent : Nat) (sfx : String) :
    Except String String := do
  let rendered ← renderProps members (indent + 2) sfx
  let props := String.intercalate ",\n" (rendered.map (fun o => o.getD ""))
  return "Joi.object(\x7b\n" ++ props ++ "\n" ++ spaces indent ++ "\x7d)"

/-- The fused `filter(isPropertySignature).filter(isIdentifier(x.name))
.map(x => prop2joi(x, indent))` pipeline of `propList2joi`, written as one
left-to-right traversal (same kept entries, same order, same first-error
behaviour). -/
def renderProps (members : List TypeElement) (indent : Nat) (sfx : String) :
    Except String (List (Option String)) :=
  match members with
  | [] => .ok []
  | m :: rest =>
      match m with
      | .propertySignature name tpe q =>
          if name.isIdentifier then do
            let hd ← prop2joi name tpe q indent sfx
            let tl ← renderProps rest indent sfx
            return hd :: tl
          else
            renderProps rest indent sfx
      | .otherElement _ => renderProps rest indent sfx

/-- `prop2joi(prop, indent)`, taking the property signature's three
fields.  Returns `none` for the source's `null` (name not an identifier
or no type annotation). -/
def prop2joi (name : PropName) (tpe : Option TypeNode) (questionToken : Bool)
    (indent : Nat) (sfx : String) : Except String (Option String) :=
  match name, tpe with
  | .ident n, some t => do
      let required := if questionToken then false else true
      let typeStr ← type2joi t required indent sfx
      return some (spaces indent ++ n ++ ": " ++ typeStr)
  | _, _ => .ok none

end

/-- `makeTypeGuard(name, type, schema)`. -/
def makeTypeGuard (name : String) (type : String) (schema : String) : String :=
  "export function " ++ name ++ "(obj: any): obj is T." ++ type ++ " \x7b\n" ++
  "  return " ++ schema ++ ".validate(obj).error === null\n" ++
  "\x7d\n"

/-- `stmt2joi(node)` with the global suffix threaded as `sfx`.  Returns
`some text` for an interface or type-alias declaration, `none` (the
source's `null`) for every other statement kind. -/
def stmt2joi (sfx : String) (node : Statement) : Except String (Option String) :=
  match node with
  | .interfaceDecl identifier members => do
      let properties ← propList2joi members 0 sfx
      let name := identifier ++ sfx
      let guard := makeTypeGuard ("is" ++ name) identifier name
      return some ("export const " ++ name ++ " = " ++ properties ++ "\n" ++ guard)
  | .typeAliasDecl identifier type => do
      let typeStr ← type2joi type false 0 sfx
      let name := identifier ++ sfx
      let guard := makeTypeGuard ("is" ++ name) identifier name
      return some ("export const " ++ name ++ " = " ++ typeStr ++ "\n" ++ guard)
  | .otherStmt _ => .ok none

/-- The options of `ts2joi` after defaulting (`suffix: ''`,
`input: 'foo.ts'`).  The `output` field of the source's `Options` is a
file descriptor consumed only by the CLI wrapper, never by `ts2joi`
itself, and is omitted. -/
structure Options where
  input : String := "foo.ts"
  suffix : String := ""

/-- `ts2joi(txt, options)`: the module compiler.  Parsing the source text
into the statement list is done by the external TypeScript parser
(`ts.createSourceFile`), so the function is modelled on the parsed
statement list.  It maps `stmt2joi` over the statements (the first thrown
error aborts the whole compilation), drops the `null` results, joins the
rest with blank lines and prepends the header and import lines. -/
def ts2joi (statements : List Statement) (opts : Options) : Except String String := do
  let results ← statements.mapM (stmt2joi opts.suffix)
  let ifaces := String.intercalate "\n\n" (results.filterMap id)
  let fname := if opts.input.endsWith ".ts" then opts.input.dropRight 3 else opts.input
  let importLine :=
    "// Automatically generated by tsjoi\n" ++
    "import Joi from \x27joi\x27\n" ++
    "import * as T from \x27./" ++ fname ++ "\x27\n" ++
    "\n"
  return importLine ++ ifaces

/-
Helper lemmas shared by the claim theorems below.
-/

lemma kind_eq_nullKeyword (t : TypeNode) :
    t.kind = SyntaxKind.nullKeyword ↔ t = TypeNode.nullKw := by
  cases t <;> simp [TypeNode.kind]

lemma type2joi_union_eq (ts : List TypeNode) (required : Bool) (indent : Nat)
    (sfx : String) :
    type2joi (.union ts) required indent sfx
      = (union2joi ts (TypeNode.getText (.union ts)) sfx).map
          (fun s => s ++ requiredSuffix required) := by
  simp [type2joi]

lemma union2joi_null_right (t : TypeNode) (txt sfx : String) :
    union2joi [t, TypeNode.nullKw] txt sfx
      = (type2joi t false 0 sfx).map (fun s => s ++ ".allow(null)") := by
  have hnull : TypeNode.nullKw.kind = SyntaxKind.nullKeyword := rfl
  by_cases h : t.kind = SyntaxKind.nullKeyword
  · have ht : t = TypeNode.nullKw := (kind_eq_nullKeyword t).mp h
    subst ht
    simp [union2joi, hnull]
  · simp [union2joi, hnull, h]

lemma union2joi_null_left (t : TypeNode) (txt sfx : String) :
    union2joi [TypeNode.nullKw, t] txt sfx
      = (type2joi t false 0 sfx).map (fun s => s ++ ".allow(null)") := by
  simp [union2joi, TypeNode.kind]

lemma except_map_map {ε α β γ : Type} (e : Except ε α) (f : α → β) (g : β → γ) :
    (e.map f).map g = e.map (fun x => g (f x)) := by
  cases e <;> simp [Except.map]

/-- C1: for every type expression `T` and every required flag, rendering the
union `T | null` (null in either position) renders `T` recursively as
non-required and appends the `.allow(null)` modifier; the caller's
required marker is then appended after the modifier per the uniform
suffix policy. -/
theorem nullable_union_renders_inner_not_required (t : TypeNode) (required : Bool)
    (indent : Nat) (sfx : String) :
    type2joi (.union [t, .nullKw]) required indent sfx
      = (type2joi t false 0 sfx).map
          (fun s => s ++ ".allow(null)" ++ requiredSuffix required)
    ∧ type2joi (.union [.nullKw, t]) required indent sfx
      = (type2joi t false 0 sfx).map
          (fun s => s ++ ".allow(null)" ++ requiredSuffix required) := by
  constructor
  · rw [type2joi_union_eq, union2joi_null_right, except_map_map]
  · rw [type2joi_union_eq, union2joi_null_left, except_map_map]

/-- C9: the element of an array type, and the non-null member of a nullable
union, are both rendered as non-required and at indent level 0, whatever
the indent level the array or union itself is rendered at. -/
theorem nested_element_rendered_at_indent_zero (e t : TypeNode) (required : Bool)
    (indent : Nat) (sfx : String) :
    type2joi (.array e) required indent sfx
      = (type2joi e false 0 sfx).map
          (fun s => "Joi.array().items(" ++ s ++ ")" ++ requiredSuffix required)
    ∧ type2joi (.union [t, .nullKw]) required indent sfx
      = (type2joi t false 0 sfx).map
          (fun s => s ++ ".allow(null)" ++ requiredSuffix required) := by
  constructor
  · have ha : type2joi (.array e) required indent sfx
        = (array2joi e sfx).map (fun s => s ++ requiredSuffix required) := by
      simp [type2joi]
    rw [ha, array2joi, except_map_map]
  · rw [type2joi_union_eq, union2joi_null_right, except_map_map]

/-- C10: a union of exactly two null members does not fail: the code takes
the nullable special case, picks the second member (itself null), and
renders the null primitive with the allow-null modifier, plus the
caller's required marker. -/
theorem double_null_union_renders (required : Bool) (indent : Nat) (sfx : String) :
    type2joi (.union [.nullKw, .nullKw]) required indent sfx
      = .ok ("Joi.null().allow(null)" ++ requiredSuffix required) := by
  rw [type2joi_union_eq, union2joi_null_left]
  simp [type2joi, TypeNode.getText, requiredSuffix, Except.map]

/-- C7: each of the eleven supported primitive keywords maps lexically to
`Joi.<keyword>()`, with `.required()` appended exactly when the required
flag is set; a type node of any kind outside the dispatch table
(modelled by `TypeNode.other`, and a bare literal type) fails. -/
theorem primitive_keyword_lexical_mapping (required : Bool) (indent : Nat)
    (sfx : String) :
    type2joi .anyKw required indent sfx = .ok ("Joi.any()" ++ requiredSuffix required)
  ∧ type2joi .numberKw required indent sfx
      = .ok ("Joi.number()" ++ requiredSuffix required)
  ∧ type2joi .objectKw required indent sfx
      = .ok ("Joi.object()" ++ requiredSuffix required)
  ∧ type2joi .booleanKw required indent sfx
      = .ok ("Joi.boolean()" ++ requiredSuffix required)
  ∧ type2joi .stringKw required indent sfx
      = .ok ("Joi.string()" ++ requiredSuffix required)
  ∧ type2joi .symbolKw required indent sfx
      = .ok ("Joi.symbol()" ++ requiredSuffix required)
  ∧ type2joi .thisKw required indent sfx
      = .ok ("Joi.this()" ++ requiredSuffix required)
  ∧ type2joi .voidKw required indent sfx
      = .ok ("Joi.void()" ++ requiredSuffix required)
  ∧ type2joi .undefinedKw required indent sfx
      = .ok ("Joi.undefined()" ++ requiredSuffix required)
  ∧ type2joi .nullKw required indent sfx
      = .ok ("Joi.null()" ++ requiredSuffix required)
  ∧ type2joi .neverKw required indent sfx
      = .ok ("Joi.never()" ++ requiredSuffix required)
  ∧ (∀ kindName text, ∃ msg,
      type2joi (.other kindName text) required indent sfx = .error msg)
  ∧ (∀ s, ∃ msg, type2joi (.stringLiteral s) required indent sfx = .error msg) := by
  refine ⟨?_, ?_, ?_, ?_, ?_, ?_, ?_, ?_, ?_, ?_, ?_, ?_, ?_⟩ <;>
    simp [type2joi, TypeNode.getText]

lemma unionFallback_not_strings (ts : List TypeNode) (txt : String)
    (h : all isStringLiteralType ts = false) :
    unionFallback ts txt
      = .error ("Cannot convert the following type yet: " ++ txt) := by
  simp [unionFallback, h]

lemma union2joi_eq_fallback (ts : List TypeNode) (txt sfx : String)
    (h : ¬ (ts.length = 2 ∧ SyntaxKind.nullKeyword ∈ ts.map TypeNode.kind)) :
    union2joi ts txt sfx = unionFallback ts txt := by
  rcases ts with _ | ⟨a, _ | ⟨b, _ | ⟨c, rest⟩⟩⟩
  · simp [union2joi]
  · simp [union2joi]
  · have hmem : ¬ SyntaxKind.nullKeyword ∈ [a.kind, b.kind] := by
      intro hm
      exact h ⟨rfl, by simpa using hm⟩
    have ha : ¬ a.kind = SyntaxKind.nullKeyword := fun e => hmem (by simp [e])
    have hb : ¬ b.kind = SyntaxKind.nullKeyword := fun e => hmem (by simp [e])
    simp [union2joi, ha, hb]
  · simp [union2joi]

/-- C2: a union whose shape is neither two-members-including-null nor
all-string-literals is rejected with the unsupported-construct error. -/
theorem unsupported_union_shape_fails (ts : List TypeNode) (required : Bool)
    (indent : Nat) (sfx : String)
    (h1 : ¬ (ts.length = 2 ∧ SyntaxKind.nullKeyword ∈ ts.map TypeNode.kind))
    (h2 : all isStringLiteralType ts = false) :
    ∃ msg, type2joi (.union ts) required indent sfx = .error msg := by
  refine ⟨"Cannot convert the following type yet: "
    ++ TypeNode.getText (.union ts), ?_⟩
  rw [type2joi_union_eq, union2joi_eq_fallback ts _ sfx h1,
    unionFallback_not_strings ts _ h2]
  rfl

/-- Witness for C2 at the concrete union `number | boolean`. -/
theorem unsupported_union_shape_fails_witness :
    ∃ msg, type2joi (.union [.numberKw, .booleanKw]) true 0 "" = .error msg :=
  unsupported_union_shape_fails [.numberKw, .booleanKw] true 0 ""
    (by decide) (by decide)

lemma all_stringLiteral_map (lits : List String) :
    all isStringLiteralType (lits.map TypeNode.stringLiteral) = true := by
  induction lits with
  | nil => rfl
  | cons x xs ih => simp [all, isStringLiteralType, ih]

lemma literalText_map (lits : List String) :
    (lits.map TypeNode.stringLiteral).map TypeNode.literalText = lits := by
  induction lits with
  | nil => rfl
  | cons x xs ih => simp only [List.map_cons, TypeNode.literalText, ih]

lemma union2joi_all_strings (lits : List String) (txt sfx : String) :
    union2joi (lits.map TypeNode.stringLiteral) txt sfx
      = unionFallback (lits.map TypeNode.stringLiteral) txt := by
  rcases lits with _ | ⟨x, _ | ⟨y, _ | ⟨z, rest⟩⟩⟩
  · simp [union2joi]
  · simp [union2joi]
  · simp [union2joi, TypeNode.kind]
  · simp [union2joi]

/-- C6: a union in which every member is a string-literal type renders as a
string schema whose allowed-value list is exactly the literal texts, each
individually quoted, in declaration order; the output is a function of
the ordered literal list, so permuting the input permutes the emitted
values identically. -/
theorem string_literal_union_enumerates_in_order (lits : List String)
    (required : Bool) (indent : Nat) (sfx : String) :
    type2joi (.union (lits.map TypeNode.stringLiteral)) required indent sfx
      = .ok ("Joi.string().valid(["
          ++ String.intercalate ", " (lits.map (fun s => "\"" ++ s ++ "\""))
          ++ "])" ++ requiredSuffix required) := by
  rw [type2joi_union_eq, union2joi_all_strings]
  simp only [unionFallback, all_stringLiteral_map, eq_self_iff_true, if_true,
    literalText_map, Except.map]

/-- C3 (code bug): an identifier-named property signature lacking a type
annotation is dropped from the field list but still contributes an empty
entry to the join — the body keeps a stray `,` line (here between the
`a` and `c` fields), unlike the render of the same list without the
typeless entry. -/
theorem typeless_property_leaves_stray_comma :
    propList2joi
      [TypeElement.propertySignature (PropName.ident "a") (some TypeNode.stringKw) false,
        TypeElement.propertySignature (PropName.ident "b") none false,
        TypeElement.propertySignature (PropName.ident "c") (some TypeNode.numberKw) false]
      0 ""
      = .ok "Joi.object(\x7b\n  a: Joi.string().required(),\n,\n  c: Joi.number().required()\n\x7d)"
  ∧ propList2joi
      [TypeElement.propertySignature (PropName.ident "a") (some TypeNode.stringKw) false,
        TypeElement.propertySignature (PropName.ident "c") (some TypeNode.numberKw) false]
      0 ""
      = .ok "Joi.object(\x7b\n  a: Joi.string().required(),\n  c: Joi.number().required()\n\x7d)" := by
  constructor <;>
  · simp [propList2joi, renderProps, prop2joi, type2joi, TypeNode.getText,
      PropName.isIdentifier, requiredSuffix, spaces]
    rfl

lemma mapM_error_of_mem {α β : Type} (f : α → Except String β) :
    ∀ (l : List α), (∃ x ∈ l, ∃ m, f x = .error m) → ∃ m, l.mapM f = .error m := by
  intro l
  induction l with
  | nil =>
      rintro ⟨x, hx, -⟩
      cases hx
  | cons a rest ih =>
      rintro ⟨x, hx, m, hm⟩
      cases hfa : f a with
      | error e =>
          refine ⟨e, ?_⟩
          rw [List.mapM_cons, hfa]
          rfl
      | ok v =>
          rcases List.mem_cons.mp hx with rfl | hx2
          · rw [hfa] at hm
            cases hm
          · obtain ⟨m2, hm2⟩ := ih ⟨x, hx2, m, hm⟩
            refine ⟨m2, ?_⟩
            rw [List.mapM_cons, hfa, hm2]
            rfl

/-- C4: if any statement of the module fails to compile, the whole module
compilation fails with an error — no output at all is produced, not even
for the supported declarations of the same module. -/
theorem unsupported_construct_aborts_module (stmts : List Statement)
    (opts : Options)
    (h : ∃ s ∈ stmts, ∃ msg, stmt2joi opts.suffix s = .error msg) :
    ∃ msg, ts2joi stmts opts = .error msg := by
  obtain ⟨m, hm⟩ := mapM_error_of_mem (stmt2joi opts.suffix) stmts h
  refine ⟨m, ?_⟩
  simp only [ts2joi]
  rw [hm]
  rfl

/-- Witness for C4: a module with one supported interface and one
type alias whose aliased type is an unsupported construct. -/
theorem unsupported_construct_aborts_module_witness :
    ∃ msg, ts2joi
      [Statement.interfaceDecl "Good"
        [TypeElement.propertySignature (PropName.ident "a") (some TypeNode.stringKw) false],
       Statement.typeAliasDecl "Bad" (TypeNode.other "FunctionType" "() => void")]
      (Options.mk "foo.ts" "") = .error msg := by
  apply unsupported_construct_aborts_module
  refine ⟨Statement.typeAliasDecl "Bad" (TypeNode.other "FunctionType" "() => void"),
    by simp, "Cannot convert type () => void yet", ?_⟩
  simp [stmt2joi, type2joi, TypeNode.getText]

/-- C5: compiling `interface Foo \x7b...\x7d` with suffix `S` emits a schema
binding named `Foo ++ S`, a guard function named `is ++ Foo ++ S` whose
asserted type is the un-suffixed `T.Foo` and whose body validates the
candidate against the suffixed binding `Foo ++ S`. -/
theorem suffixed_binding_and_guard_naming (identifier sfx : String)
    (members : List TypeElement) (props : String)
    (h : propList2joi members 0 sfx = .ok props) :
    stmt2joi sfx (.interfaceDecl identifier members)
      = .ok (some ("export const " ++ (identifier ++ sfx) ++ " = " ++ props ++ "\n"
          ++ ("export function " ++ ("is" ++ (identifier ++ sfx))
            ++ "(obj: any): obj is T." ++ identifier ++ " \x7b\n"
            ++ "  return " ++ (identifier ++ sfx)
            ++ ".validate(obj).error === null\n" ++ "\x7d\n"))) := by
  simp only [stmt2joi]
  rw [h]
  rfl

/-- Witness for C5 at `interface Foo \x7b a: string \x7d` with suffix
`Schema`. -/
theorem suffixed_binding_and_guard_naming_witness :
    stmt2joi "Schema" (.interfaceDecl "Foo"
      [TypeElement.propertySignature (PropName.ident "a") (some TypeNode.stringKw) false])
      = .ok (some ("export const " ++ ("Foo" ++ "Schema") ++ " = "
          ++ "Joi.object(\x7b\n  a: Joi.string().required()\n\x7d)" ++ "\n"
          ++ ("export function " ++ ("is" ++ ("Foo" ++ "Schema"))
            ++ "(obj: any): obj is T." ++ "Foo" ++ " \x7b\n"
            ++ "  return " ++ ("Foo" ++ "Schema")
            ++ ".validate(obj).error === null\n" ++ "\x7d\n"))) :=
  suffixed_binding_and_guard_naming "Foo" "Schema" _ _
    (by simp [propList2joi, renderProps, prop2joi, type2joi, TypeNode.getText,
      PropName.isIdentifier, requiredSuffix, spaces]; rfl)

lemma mapM_filterMap_skip_none {f : Statement → Except String (Option String)}
    (a : Statement) (ha : f a = .ok none) :
    ∀ (xs ys : List Statement),
      ((xs ++ a :: ys).mapM f).map (fun l => l.filterMap id)
        = ((xs ++ ys).mapM f).map (fun l => l.filterMap id) := by
  intro xs
  induction xs with
  | nil =>
      intro ys
      rw [List.nil_append, List.nil_append, List.mapM_cons, ha]
      cases hm : ys.mapM f with
      | error e => rfl
      | ok t => rfl
  | cons x xs ih =>
      intro ys
      rw [List.cons_append, List.cons_append, List.mapM_cons, List.mapM_cons]
      cases hfx : f x with
      | error e => rfl
      | ok v =>
          have h1 := ih ys
          cases hm1 : (xs ++ a :: ys).mapM f with
          | error e =>
              rw [hm1] at h1
              cases hm2 : (xs ++ ys).mapM f with
              | error e2 =>
                  rw [hm2] at h1
                  simp [Except.map] at h1
                  subst h1
                  rfl
              | ok t2 =>
                  rw [hm2] at h1
                  simp [Except.map] at h1
          | ok t =>
              rw [hm1] at h1
              cases hm2 : (xs ++ ys).mapM f with
              | error e2 =>
                  rw [hm2] at h1
                  simp [Except.map] at h1
              | ok t2 =>
                  rw [hm2] at h1
                  simp [Except.map] at h1
                  show Except.ok ((v :: t).filterMap id)
                    = Except.ok ((v :: t2).filterMap id)
                  cases v <;> simp [List.filterMap_cons, h1]

lemma ts2joi_congr (l1 l2 : List Statement) (opts : Options)
    (h : (l1.mapM (stmt2joi opts.suffix)).map (fun l => l.filterMap id)
       = (l2.mapM (stmt2joi opts.suffix)).map (fun l => l.filterMap id)) :
    ts2joi l1 opts = ts2joi l2 opts := by
  cases h1 : l1.mapM (stmt2joi opts.suffix) with
  | error e =>
      rw [h1] at h
      cases h2 : l2.mapM (stmt2joi opts.suffix) with
      | error e2 =>
          rw [h2] at h
          simp [Except.map] at h
          subst h
          simp only [ts2joi]
          rw [h1, h2]
      | ok t2 =>
          rw [h2] at h
          simp [Except.map] at h
  | ok t =>
      rw [h1] at h
      cases h2 : l2.mapM (stmt2joi opts.suffix) with
      | error e2 =>
          rw [h2] at h
          simp [Except.map] at h
      | ok t2 =>
          rw [h2] at h
          simp [Except.map] at h
          simp only [ts2joi]
          rw [h1, h2]
          show Except.ok _ = Except.ok _
          rw [h]

/-- C8: a statement that is neither an interface nor a type alias compiles
to `none` (no output, no error), and deleting such a statement from a
module leaves the compiled module text unchanged — its presence neither
contributes output nor makes the compilation fail. -/
theorem other_declaration_kinds_skipped :
    (∀ (sfx text : String), stmt2joi sfx (.otherStmt text) = .ok none)
  ∧ (∀ (xs ys : List Statement) (text : String) (opts : Options),
      ts2joi (xs ++ .otherStmt text :: ys) opts = ts2joi (xs ++ ys) opts) := by
  constructor
  · intro sfx text
    rfl
  · intro xs ys text opts
    exact ts2joi_congr _ _ opts
      (mapM_filterMap_skip_none (Statement.otherStmt text) rfl xs ys)
